import Mathlib

/-!
# Interrupt Latency Timer (ILT): kernel relay and userspace protocol driver

A shallow embedding of

* `recipes-kernel/ilt-uio-module/files/uio-ilt.c` (namespace `Kernel`), and
* `recipes-aries/ilt-uio-userspace/files/uio-aries-ilt.c` (namespace `ILT`).

Conventions.

* `uint32_t` / `uint64_t` values are natural numbers; every C operation whose
  result could leave the type is followed by an explicit `% 2^32` / `% 2^64`.
* The register block is plain memory: a load returns the last stored word.
  Every volatile store is additionally appended to a store trace
  `(byte offset, word)`, in program order.
* `stdout` is a list of events, one per `printf` call.
* The blocking `read()` on the UIO file descriptor is an oracle: the `k`-th call
  made by the process returns `env k`.
-/

namespace Kernel

/-- Macro `#define ILT_INT_ASR_OFFSET 0x20` -/
def ILT_INT_ASR_OFFSET : Nat := 0x20

/-- Macro `#define ILT_INT_ACK0 (1<<0)` -/
def ILT_INT_ACK0 : Nat := 1 <<< 0

/-- Macro `#define ILT_ACK0_WAIT (1<<24)` -/
def ILT_ACK0_WAIT : Nat := 1 <<< 24

/-- The two values of `irqreturn_t` the handler returns. -/
inductive irqreturn_t where
  | IRQ_NONE
  | IRQ_HANDLED
  deriving DecidableEq, Repr

/-- The I/O memory behind `dev_info->ilt_base`: the word found at each byte
offset, and the trace of `iowrite32` calls `(offset, value)`. -/
structure IoMem where
  mem : Nat → Nat
  writes : List (Nat × Nat)

/-- Call `ioread32(base + off)`: a 32-bit load. -/
def ioread32 (io : IoMem) (off : Nat) : Nat :=
  io.mem off % 2 ^ 32

/-- Call `iowrite32(v, base + off)`: a 32-bit store, recorded in the trace. -/
def iowrite32 (v : Nat) (io : IoMem) (off : Nat) : IoMem :=
  { mem := fun o => if o = off then v % 2 ^ 32 else io.mem o
    writes := io.writes ++ [(off, v % 2 ^ 32)] }

/-- Function `uio_ilt_handler`: when the ILT waits for ACK0 the handler acknowledges and
returns `IRQ_HANDLED`, otherwise it returns `IRQ_NONE`. -/
def uio_ilt_handler (io : IoMem) : irqreturn_t × IoMem :=
  let int_ack_sr := ILT_INT_ASR_OFFSET
  if ioread32 io int_ack_sr &&& ILT_ACK0_WAIT = ILT_ACK0_WAIT then
    (irqreturn_t.IRQ_HANDLED, iowrite32 ILT_INT_ACK0 io int_ack_sr)
  else
    (irqreturn_t.IRQ_NONE, io)

end Kernel

namespace ILT

/-- Macro `#define ILT_MILLISEC_FACTOR (1000000/40)` -/
def ILT_MILLISEC_FACTOR : Nat := 1000000 / 40

/-- Macro `#define BIT(x) (1<<x)`, as the 32-bit pattern of the `int` result. -/
def BIT (x : Nat) : Nat := (1 <<< x) % 2 ^ 32

/-- The C operator `~` on a 32-bit pattern. -/
def not32 (x : Nat) : Nat := (x ^^^ 0xFFFFFFFF) % 2 ^ 32

/-- Enumeration `enum aries_ilt_IRG_mode`. -/
inductive aries_ilt_IRG_mode where
  | irg_disabled
  | irg_free_running
  | irg_delay_after_ACK0
  | irg_delay_after_ACK3
  deriving DecidableEq, Repr

/-- The integer value of an enumerator. -/
def aries_ilt_IRG_mode.val : aries_ilt_IRG_mode → Nat
  | .irg_disabled => 0
  | .irg_free_running => 1
  | .irg_delay_after_ACK0 => 2
  | .irg_delay_after_ACK3 => 3

def MCSR_MASK_IRG_MODE : Nat := 0x03
def MCSR_FLAG_START_DELAY_COUNTER : Nat := BIT 7
def MCSR_FLAG_FRT_LATCH_VALID_L : Nat := BIT 24
def MCSR_FLAG_FRT_LATCH_VALID_H : Nat := BIT 25
def MCSR_FLAG_ILT_ENABLE : Nat := BIT 31
def IASR_FLAG_W_ACK_0 : Nat := BIT 0
def IASR_FLAG_W_ACK_1 : Nat := BIT 1
def IASR_FLAG_W_ACK_2 : Nat := BIT 2
def IASR_FLAG_W_ACK_3 : Nat := BIT 3

/-- Type `aries_ilt_regmap_t`: sixteen consecutive 32-bit words. -/
structure aries_ilt_regmap where
  core_id : Nat
  master_csr : Nat
  fr_timer_latch_low : Nat
  fr_timer_latch_high : Nat
  int_gen_delay : Nat
  reserved_1 : Nat
  reserved_2 : Nat
  reserved_3 : Nat
  int_ack_sr : Nat
  int_count : Nat
  missed_ack0_counter : Nat
  missed_ack3_counter : Nat
  ack0_latency_latch : Nat
  ack1_latency_latch : Nat
  ack2_latency_latch : Nat
  ack3_latency_latch : Nat
  deriving DecidableEq, Repr

/-- Byte offsets of the members the program stores to. -/
def OFF_master_csr : Nat := 0x04
def OFF_int_gen_delay : Nat := 0x10
def OFF_int_ack_sr : Nat := 0x20

/-- One `printf` call. -/
inductive Out where
  | text (s : String)
  | dump (r : aries_ilt_regmap)
  | interrupt (info : Nat)
  | os_latency (ns : Int)
  | sw_latency (ns : Int)
  | core_id (v : Nat)
  | mcsr (v : Nat)
  deriving DecidableEq, Repr

/-- What one `read(uio_Fd0, &info, sizeof(info))` call yields: the returned byte
count and the content of `info` afterwards. -/
structure ReadRes where
  nb : Int
  info : Nat
  deriving DecidableEq, Repr

/-- The process state: the mapped register block, the trace of volatile stores,
`stdout`, and the number of `read()` calls made so far. -/
structure World where
  ilt : aries_ilt_regmap
  writes : List (Nat × Nat)
  out : List Out
  reads : Nat
  deriving DecidableEq, Repr

/-- The store `ilt->master_csr = v`. -/
def store_master_csr (w : World) (v : Nat) : World :=
  { w with ilt := { w.ilt with master_csr := v }, writes := w.writes ++ [(OFF_master_csr, v)] }

/-- The store `ilt->int_gen_delay = v`. -/
def store_int_gen_delay (w : World) (v : Nat) : World :=
  { w with ilt := { w.ilt with int_gen_delay := v }, writes := w.writes ++ [(OFF_int_gen_delay, v)] }

/-- The store `ilt->int_ack_sr = v`. -/
def store_int_ack_sr (w : World) (v : Nat) : World :=
  { w with ilt := { w.ilt with int_ack_sr := v }, writes := w.writes ++ [(OFF_int_ack_sr, v)] }

/-- A `printf` call. -/
def print (w : World) (o : Out) : World :=
  { w with out := w.out ++ [o] }

/-- Source: `ilt->master_csr |= MCSR_FLAG_ILT_ENABLE;` -/
def enable_ilt (w : World) : World :=
  store_master_csr w ((w.ilt.master_csr ||| MCSR_FLAG_ILT_ENABLE) % 2 ^ 32)

/-- Source: `ilt->master_csr &= ~MCSR_FLAG_ILT_ENABLE;` -/
def disable_ilt (w : World) : World :=
  store_master_csr w ((w.ilt.master_csr &&& not32 MCSR_FLAG_ILT_ENABLE) % 2 ^ 32)

/-- Source: `ilt->master_csr |= MCSR_FLAG_START_DELAY_COUNTER;` -/
def start_delay_counter (w : World) : World :=
  store_master_csr w ((w.ilt.master_csr ||| MCSR_FLAG_START_DELAY_COUNTER) % 2 ^ 32)

/-- Source: `ilt->int_ack_sr |= ( IASR_FLAG_W_ACK_3 );` -/
def ilt_ack_app_interrupt (w : World) : World :=
  store_int_ack_sr w ((w.ilt.int_ack_sr ||| IASR_FLAG_W_ACK_3) % 2 ^ 32)

/-- Source: `csr = ilt->master_csr; csr &= ~MCSR_MASK_IRG_MODE; csr |= mode;
ilt->master_csr = csr;` -/
def set_igm_mode (w : World) (mode : aries_ilt_IRG_mode) : World :=
  let csr := w.ilt.master_csr % 2 ^ 32
  let csr := (csr &&& not32 MCSR_MASK_IRG_MODE) % 2 ^ 32
  let csr := (csr ||| mode.val) % 2 ^ 32
  store_master_csr w csr

/-- Source: `ilt->int_gen_delay = (uint32_t)milliseconds * ILT_MILLISEC_FACTOR;` with
`milliseconds` a `uint16_t`. -/
def set_ilt_delay (w : World) (milliseconds : Nat) : World :=
  store_int_gen_delay w (((milliseconds % 2 ^ 16) * ILT_MILLISEC_FACTOR) % 2 ^ 32)

/-- Source: `return (uint64_t)(((uint64_t)(ilt->fr_timer_latch_high)<<32) & ilt->fr_timer_latch_low);` -/
def read_frt_latch (w : World) : Nat :=
  ((((w.ilt.fr_timer_latch_high % 2 ^ 32) <<< 32) % 2 ^ 64) &&& (w.ilt.fr_timer_latch_low % 2 ^ 32))
    % 2 ^ 64

/-- Source: `csr = ilt->master_csr; return (csr & VALID_H) && (csr & VALID_L);` together
with the (unchanged) state it leaves. -/
def get_frt_latch_valid (w : World) : Bool × World :=
  let csr := w.ilt.master_csr % 2 ^ 32
  (decide (csr &&& MCSR_FLAG_FRT_LATCH_VALID_H ≠ 0) && decide (csr &&& MCSR_FLAG_FRT_LATCH_VALID_L ≠ 0), w)

/-- Function `debug_dump`: prints all sixteen registers. -/
def debug_dump (w : World) : World :=
  print w (Out.dump w.ilt)

/-- The value `printf("%d", x)` shows for a 32-bit pattern `x`. -/
def printf_d (x : Nat) : Int :=
  if x % 2 ^ 32 < 2 ^ 31 then ((x % 2 ^ 32 : Nat) : Int) else ((x % 2 ^ 32 : Nat) : Int) - 2 ^ 32

/-- The argument expression `latch * 40` (a `uint32_t` product) as shown by `%d`. -/
def latency_ns (latch : Nat) : Int :=
  printf_d (((latch % 2 ^ 32) * 40) % 2 ^ 32)


/-- One pass through the body of the `for` loop of `ilt_free_running_test`:
wait for the interrupt with `read`; on a full read (`nb == sizeof(info)`)
acknowledge ACK3, dump the registers and print the two latencies. -/
def free_running_iteration (env : Nat → ReadRes) (w : World) : World :=
  let r := env w.reads
  let w := { w with reads := w.reads + 1 }
  if r.nb = 4 then
    let w := ilt_ack_app_interrupt w
    let w := print w (Out.interrupt r.info)
    let w := print w (Out.text "--------------------------")
    let w := debug_dump w
    let w := print w (Out.text "--------------------------")
    let w := print w (Out.os_latency (latency_ns w.ilt.ack0_latency_latch))
    let w := print w (Out.sw_latency (latency_ns w.ilt.ack3_latency_latch))
    print w (Out.text "--------------------------")
  else w

/-- The loop `for (loopcount = 0; loopcount < 20; loopcount++) { ... }` of
`ilt_free_running_test`, with `n` iterations left. -/
def free_running_loop (env : Nat → ReadRes) : Nat → World → World
  | 0, w => w
  | n + 1, w => free_running_loop env n (free_running_iteration env w)

/-- The part of `ilt_free_running_test` before the loop: disable, enable, set
the generator delay to 1000 ms, select free running mode, dump, start the delay
counter. -/
def free_running_setup (w : World) : World :=
  let w := disable_ilt w
  let w := print w (Out.text "starting delay ILT...")
  let w := enable_ilt w
  let w := print w (Out.text "setting generator delay...")
  let w := set_ilt_delay w 1000
  let w := print w (Out.text "setting to free running mode...")
  let w := set_igm_mode w aries_ilt_IRG_mode.irg_free_running
  let w := debug_dump w
  let w := print w (Out.text "starting delay counter...")
  start_delay_counter w

/-- Function `ilt_free_running_test`: setup, twenty loop iterations, disable. -/
def ilt_free_running_test (env : Nat → ReadRes) (w : World) : World :=
  let w := free_running_setup w
  let w := free_running_loop env 20 w
  disable_ilt w

/-- The three `printf` calls at the top of the menu loop. -/
def print_menu (w : World) : World :=
  let w := print w (Out.text "# Choose one of  the following options:")
  let w := print w (Out.text "Enter 1 to test in free running mode")
  print w (Out.text "Enter q to Exit")

/-- Function `ilt_test_dispatcher`: the menu loop over the characters `scanf`
delivers. The C loop only ends on `q` or `3`; when the input holds neither, the
function does not return (`none`). -/
def ilt_test_dispatcher (env : Nat → ReadRes) : List Char → World → Option World
  | [], _ => none
  | cmd :: rest, w =>
    let w := print_menu w
    if cmd = '3' ∨ cmd = 'q' then some w
    else if cmd = '1' then ilt_test_dispatcher env rest (ilt_free_running_test env w)
    else ilt_test_dispatcher env rest (print w (Out.text "Choose a valid option."))

/-- What `main` depends on outside the program. -/
structure Sys where
  /-- the result of `get_uio_device` -/
  index : Int
  /-- the result of `open` -/
  uioFd : Int
  /-- the result of `get_memory_size`; `none` when it calls `exit(0)` -/
  mmap_size : Option Nat
  /-- whether `mmap` succeeds -/
  mmap_ok : Bool
  /-- the content of the register block when it is mapped -/
  regs : aries_ilt_regmap
  /-- the results of the `read` calls on the UIO descriptor -/
  env : Nat → ReadRes
  /-- the characters `scanf` delivers -/
  cmds : List Char
  /-- the result of the final `close` -/
  close_ret : Int

/-- How the process ends: its exit status and, when the register block was
mapped, the process state at the moment `munmap` is called (`stdout` is
recorded from the mapping on). -/
structure Exit where
  retCode : Int
  at_munmap : Option World
  deriving DecidableEq, Repr

/-- Function `main`. `none` when the dispatcher does not return. -/
def main (sys : Sys) : Option Exit :=
  if sys.index < 0 then some { retCode := -1, at_munmap := none }
  else if sys.uioFd < 0 then some { retCode := -1, at_munmap := none }
  else
    match sys.mmap_size with
    | none => some { retCode := 0, at_munmap := none }
    | some sz =>
      if sz % 2 ^ 32 = 0 then some { retCode := -1, at_munmap := none }
      else if sys.mmap_ok = false then some { retCode := -1, at_munmap := none }
      else
        let w : World := { ilt := sys.regs, writes := [], out := [], reads := 0 }
        let w := print w (Out.text "Memory mapped")
        let w := print w (Out.core_id w.ilt.core_id)
        let w := print w (Out.mcsr w.ilt.master_csr)
        match ilt_test_dispatcher sys.env sys.cmds w with
        | none => none
        | some w => some { retCode := sys.close_ret, at_munmap := some w }


/-- Number of stores to `int_ack_sr` in a store trace. -/
def ack_stores (l : List (Nat × Nat)) : Nat :=
  (l.filter (fun p => decide (p.1 = OFF_int_ack_sr))).length

/-- Number of "OS latency" lines in the output. -/
def os_reports (l : List Out) : Nat :=
  (l.filter (fun o => match o with | Out.os_latency _ => true | _ => false)).length

/-- Number of "SW latency" lines in the output. -/
def sw_reports (l : List Out) : Nat :=
  (l.filter (fun o => match o with | Out.sw_latency _ => true | _ => false)).length

/-- Number of full (4-byte) reads among the `n` calls `start, ..., start + n - 1`. -/
def full_reads (env : Nat → ReadRes) (start n : Nat) : Nat :=
  ((List.range n).filter (fun k => decide ((env (start + k)).nb = 4))).length

/-- The word `ilt_ack_app_interrupt` stores when `int_ack_sr` reads as `a`. -/
def ack3_word (a : Nat) : Nat := (a ||| 0x00000008) % 2 ^ 32

/-- The content of `master_csr` after the first `disable_ilt` of a session that
found it as `c`. -/
def csr_disabled (c : Nat) : Nat := c &&& 0x7FFFFFFF

/-- The content of `master_csr` after the following `enable_ilt`. -/
def csr_enabled (c : Nat) : Nat := csr_disabled c ||| 0x80000000

/-- The content of `master_csr` after the following `set_igm_mode` to free running. -/
def csr_mode (c : Nat) : Nat := (csr_enabled c &&& 0xFFFFFFFC) ||| 1

/-- The content of `master_csr` after the following `start_delay_counter`. -/
def csr_started (c : Nat) : Nat := csr_mode c ||| 0x80

/-- The lines `ilt_free_running_test` prints before its loop; `r` is the register
block at the time of the dump. -/
def setup_output (r : aries_ilt_regmap) : List Out :=
  [Out.text "starting delay ILT...", Out.text "setting generator delay...",
   Out.text "setting to free running mode...", Out.dump r, Out.text "starting delay counter..."]

/-- The register block after `ilt_ack_app_interrupt` (plain-memory view). -/
def with_ack (r : aries_ilt_regmap) : aries_ilt_regmap :=
  { r with int_ack_sr := ack3_word r.int_ack_sr }

/-- The lines one acknowledged iteration prints: `info` is the event count read,
`r` the register block after the acknowledgment. -/
def iteration_output (info : Nat) (r : aries_ilt_regmap) : List Out :=
  [Out.interrupt info, Out.text "--------------------------", Out.dump r,
   Out.text "--------------------------", Out.os_latency (latency_ns r.ack0_latency_latch),
   Out.sw_latency (latency_ns r.ack3_latency_latch), Out.text "--------------------------"]

/-! ### Concrete states used to instantiate the theorems -/

/-- A register block with the enable bit, both latch-valid bits and mode 2 set in
`master_csr`, status bits set in `int_ack_sr`, and large latency latches. -/
def regs_busy : aries_ilt_regmap :=
  { core_id := 0x494C5400
    master_csr := 0x83000002
    fr_timer_latch_low := 0xDEADBEEF
    fr_timer_latch_high := 0x00000012
    int_gen_delay := 7
    reserved_1 := 0
    reserved_2 := 0
    reserved_3 := 0
    int_ack_sr := 0x00010001
    int_count := 5
    missed_ack0_counter := 0
    missed_ack3_counter := 0
    ack0_latency_latch := 53687092
    ack1_latency_latch := 0
    ack2_latency_latch := 0
    ack3_latency_latch := 1000 }

/-- The process state right after mapping `regs_busy`. -/
def world_busy : World :=
  { ilt := regs_busy, writes := [], out := [], reads := 0 }

/-- Every `read` returns the full four bytes. -/
def env_full : Nat → ReadRes := fun k => { nb := 4, info := k + 1 }

/-- Every third `read` is short: it returns 0 bytes. -/
def env_mixed : Nat → ReadRes := fun k => { nb := if k % 3 = 0 then 0 else 4, info := k }

/-- A run of `main` on `regs_busy` whose only command is `q`. -/
def sys_quit : Sys :=
  { index := 0, uioFd := 3, mmap_size := some 0x1000, mmap_ok := true, regs := regs_busy,
    env := env_full, cmds := ['q'], close_ret := 0 }

/-- A run of `main` on `regs_busy` with an invalid command, one test and `q`. -/
def sys_one_test : Sys :=
  { index := 0, uioFd := 3, mmap_size := some 0x1000, mmap_ok := true, regs := regs_busy,
    env := env_mixed, cmds := ['x', '1', 'q'], close_ret := 0 }

/-- An I/O memory whose `int_ack_sr` has ACK0 wait (bit 24) set. -/
def io_waiting : Kernel.IoMem :=
  { mem := fun o => if o = 0x20 then 0x01000000 else 0, writes := [] }

end ILT

/-! ## Bit-level facts -/

namespace Bits

theorem and_two_pow_eq_iff (a n : Nat) : a &&& 2 ^ n = 2 ^ n ↔ a.testBit n = true := by
  constructor
  · intro h
    have h1 : (a &&& 2 ^ n).testBit n = (2 ^ n).testBit n := by rw [h]
    simpa [Nat.testBit_and, Nat.testBit_two_pow_self] using h1
  · intro h
    apply Nat.eq_of_testBit_eq
    intro i
    rw [Nat.testBit_and, Nat.testBit_two_pow]
    by_cases hi : n = i
    · subst hi; simp [h]
    · simp [hi]

theorem and_two_pow_ne_zero_iff (a n : Nat) : a &&& 2 ^ n ≠ 0 ↔ a.testBit n = true := by
  constructor
  · intro h
    by_contra hb
    apply h
    apply Nat.eq_of_testBit_eq
    intro i
    rw [Nat.testBit_and, Nat.testBit_two_pow]
    by_cases hi : n = i
    · subst hi; simp at hb; simp [hb]
    · simp [hi]
  · intro h h0
    have h1 : (a &&& 2 ^ n).testBit n = (0 : Nat).testBit n := by rw [h0]
    simp [Nat.testBit_and, Nat.testBit_two_pow_self, h] at h1

theorem testBit_mod32 (a i : Nat) (h : i < 32) : (a % 2 ^ 32).testBit i = a.testBit i := by
  rw [Nat.testBit_mod_two_pow]
  simp [h]

theorem testBit_mask_FFFFFFFC (j : Nat) :
    Nat.testBit 0xFFFFFFFC j = (decide (2 ≤ j) && decide (j < 32)) := by
  have h : (0xFFFFFFFC : Nat) = (2 ^ 30 - 1) <<< 2 := by decide
  rw [h, Nat.testBit_shiftLeft, Nat.testBit_two_pow_sub_one]
  by_cases h2 : 2 ≤ j
  · by_cases h3 : j < 32
    · have : j - 2 < 30 := by omega
      simp [h2, h3, this]
    · have : ¬ (j - 2 < 30) := by omega
      simp [h2, h3, this]
  · simp [h2]

theorem testBit_mask_7FFFFFFF (j : Nat) : Nat.testBit 0x7FFFFFFF j = decide (j < 31) := by
  have h : (0x7FFFFFFF : Nat) = 2 ^ 31 - 1 := by decide
  rw [h, Nat.testBit_two_pow_sub_one]

theorem testBit_of_lt32 (c i : Nat) (hc : c < 2 ^ 32) (hi : 32 ≤ i) : c.testBit i = false := by
  apply Nat.testBit_lt_two_pow
  calc c < 2 ^ 32 := hc
    _ ≤ 2 ^ i := Nat.pow_le_pow_right (by decide) hi

end Bits

/-! ## The kernel relay -/

namespace Kernel

/-- C1. For every content of `int_ack_sr` (offset 0x20): when bit 24 (ACK0 wait)
is clear the handler returns `IRQ_NONE` and leaves the I/O memory and the store
trace untouched; when bit 24 is set it returns `IRQ_HANDLED` after exactly one
store, of the word `0x00000001` to offset `0x20`. No other offset (in
particular not `master_csr` at `0x04`) is ever stored to. -/
theorem uio_ilt_handler_relay (io : IoMem) :
    uio_ilt_handler io =
      if (io.mem 0x20).testBit 24 then
        (irqreturn_t.IRQ_HANDLED,
          { mem := fun o => if o = 0x20 then 0x00000001 else io.mem o
            writes := io.writes ++ [(0x20, 0x00000001)] })
      else (irqreturn_t.IRQ_NONE, io) := by
  have hw : ILT_ACK0_WAIT = 2 ^ 24 := by decide
  have hb : (ioread32 io ILT_INT_ASR_OFFSET &&& ILT_ACK0_WAIT = ILT_ACK0_WAIT)
      ↔ (io.mem 0x20).testBit 24 = true := by
    rw [hw, Bits.and_two_pow_eq_iff]
    unfold ioread32 ILT_INT_ASR_OFFSET
    rw [Bits.testBit_mod32 _ _ (by decide)]
  unfold uio_ilt_handler
  by_cases h : (io.mem 0x20).testBit 24 = true
  · have h' := hb.mpr h
    simp only [h', h, if_true]
    rfl
  · have h' : ¬ (ioread32 io ILT_INT_ASR_OFFSET &&& ILT_ACK0_WAIT = ILT_ACK0_WAIT) :=
      fun x => h (hb.mp x)
    simp only [h', h, if_false]
    simp

end Kernel

/-! ## The userspace register helpers -/

namespace ILT

theorem BIT_eq (x : Nat) (h : x < 32) : BIT x = 2 ^ x := by
  unfold BIT
  rw [Nat.shiftLeft_eq, Nat.one_mul]
  apply Nat.mod_eq_of_lt
  exact Nat.pow_lt_pow_right (by decide) h

theorem not32_enable : not32 MCSR_FLAG_ILT_ENABLE = 0x7FFFFFFF := by decide

theorem not32_mode_mask : not32 MCSR_MASK_IRG_MODE = 0xFFFFFFFC := by decide

theorem mode_val_lt (m : aries_ilt_IRG_mode) : m.val < 4 := by
  cases m <;> decide

/-- C2. For every 16-bit delay `d` (milliseconds) and every state, `set_ilt_delay`
performs one store, of the exact product `d * 25000`, to `int_gen_delay`: the
product stays below `2^32`, so nothing wraps, and no other register changes. -/
theorem set_ilt_delay_exact (w : World) (d : Nat) (hd : d ≤ 65535) :
    (set_ilt_delay w d).ilt = { w.ilt with int_gen_delay := d * 25000 }
      ∧ (set_ilt_delay w d).writes = w.writes ++ [(0x10, d * 25000)]
      ∧ d * 25000 < 2 ^ 32
      ∧ ILT_MILLISEC_FACTOR = 25000 := by
  have h1 : d % 2 ^ 16 = d := Nat.mod_eq_of_lt (by omega)
  have h2 : d * 25000 < 2 ^ 32 := by omega
  have h3 : (d * 25000) % 2 ^ 32 = d * 25000 := Nat.mod_eq_of_lt h2
  have hf : ILT_MILLISEC_FACTOR = 25000 := by decide
  refine ⟨?_, ?_, h2, hf⟩
  · simp only [set_ilt_delay, store_int_gen_delay, hf, h1, h3]
  · simp only [set_ilt_delay, store_int_gen_delay, hf, h1, h3, OFF_int_gen_delay]

/-- Witness for C2 at the largest input: 65535 ms gives 1,638,375,000 ticks. -/
theorem set_ilt_delay_exact_witness :
    (65535 : Nat) ≤ 65535
      ∧ (set_ilt_delay world_busy 65535).ilt
          = { world_busy.ilt with int_gen_delay := 65535 * 25000 }
      ∧ (set_ilt_delay world_busy 65535).writes = world_busy.writes ++ [(0x10, 65535 * 25000)]
      ∧ 65535 * 25000 < 2 ^ 32
      ∧ ILT_MILLISEC_FACTOR = 25000 :=
  ⟨by decide, set_ilt_delay_exact world_busy 65535 (by decide)⟩

/-- C5. The latch-valid test is true exactly when bit 24 (low valid) and bit 25
(high valid) of `master_csr` are both set, whatever the other bits are, and it
leaves the whole state (registers, store trace) as it found it. -/
theorem get_frt_latch_valid_iff (w : World) :
    get_frt_latch_valid w = (w.ilt.master_csr.testBit 24 && w.ilt.master_csr.testBit 25, w) := by
  have hL : MCSR_FLAG_FRT_LATCH_VALID_L = 2 ^ 24 := BIT_eq 24 (by decide)
  have hH : MCSR_FLAG_FRT_LATCH_VALID_H = 2 ^ 25 := BIT_eq 25 (by decide)
  have h24 : decide (w.ilt.master_csr % 2 ^ 32 &&& 2 ^ 24 ≠ 0) = w.ilt.master_csr.testBit 24 := by
    rw [← Bits.testBit_mod32 w.ilt.master_csr 24 (by decide)]
    cases hb : (w.ilt.master_csr % 2 ^ 32).testBit 24
    · exact decide_eq_false (fun h => by
        rw [Bits.and_two_pow_ne_zero_iff, hb] at h; exact Bool.noConfusion h)
    · exact decide_eq_true ((Bits.and_two_pow_ne_zero_iff _ _).mpr hb)
  have h25 : decide (w.ilt.master_csr % 2 ^ 32 &&& 2 ^ 25 ≠ 0) = w.ilt.master_csr.testBit 25 := by
    rw [← Bits.testBit_mod32 w.ilt.master_csr 25 (by decide)]
    cases hb : (w.ilt.master_csr % 2 ^ 32).testBit 25
    · exact decide_eq_false (fun h => by
        rw [Bits.and_two_pow_ne_zero_iff, hb] at h; exact Bool.noConfusion h)
    · exact decide_eq_true ((Bits.and_two_pow_ne_zero_iff _ _).mpr hb)
  unfold get_frt_latch_valid
  simp only [hL, hH, h24, h25, Bool.and_comm]

/-- C10. Whatever the two latch words hold, `read_frt_latch` returns 0, because
`high << 32` and `low` share no set bit; hence the result is the 64-bit snapshot
`high * 2^32 + low` only when both words are 0. -/
theorem read_frt_latch_zero (w : World) :
    read_frt_latch w = 0
      ∧ (read_frt_latch w = w.ilt.fr_timer_latch_high * 2 ^ 32 + w.ilt.fr_timer_latch_low
          ↔ w.ilt.fr_timer_latch_high = 0 ∧ w.ilt.fr_timer_latch_low = 0) := by
  have h0 : read_frt_latch w = 0 := by
    unfold read_frt_latch
    have hz : (((w.ilt.fr_timer_latch_high % 2 ^ 32) <<< 32) % 2 ^ 64)
        &&& (w.ilt.fr_timer_latch_low % 2 ^ 32) = 0 := by
      apply Nat.eq_of_testBit_eq
      intro i
      rw [Nat.testBit_and, Nat.testBit_mod_two_pow, Nat.testBit_shiftLeft]
      by_cases hi : i < 32
      · have : ¬ (i ≥ 32) := by omega
        simp [this]
      · have hl : (w.ilt.fr_timer_latch_low % 2 ^ 32).testBit i = false :=
          Bits.testBit_of_lt32 _ i (Nat.mod_lt _ (by decide)) (by omega)
        rw [hl]
        simp
    rw [hz]
    rfl
  refine ⟨h0, ?_⟩
  rw [h0]
  constructor
  · intro h
    have hp : (0 : Nat) < 2 ^ 32 := by decide
    have h1 : w.ilt.fr_timer_latch_high * 2 ^ 32 = 0 := by omega
    have h2 : w.ilt.fr_timer_latch_low = 0 := by omega
    rcases Nat.eq_zero_or_pos w.ilt.fr_timer_latch_high with h3 | h3
    · exact ⟨h3, h2⟩
    · have := Nat.mul_pos h3 hp
      omega
  · rintro ⟨h1, h2⟩
    rw [h1, h2]
    rfl

theorem enable_value (c : Nat) (hc : c < 2 ^ 32) :
    (c ||| MCSR_FLAG_ILT_ENABLE) % 2 ^ 32 = c ||| 0x80000000 := by
  have h : MCSR_FLAG_ILT_ENABLE = 0x80000000 := by decide
  rw [h]
  exact Nat.mod_eq_of_lt (Nat.or_lt_two_pow hc (by decide))

theorem disable_value (c : Nat) :
    (c &&& not32 MCSR_FLAG_ILT_ENABLE) % 2 ^ 32 = c &&& 0x7FFFFFFF := by
  rw [not32_enable]
  exact Nat.mod_eq_of_lt (Nat.and_lt_two_pow c (by decide))

theorem start_value (c : Nat) (hc : c < 2 ^ 32) :
    (c ||| MCSR_FLAG_START_DELAY_COUNTER) % 2 ^ 32 = c ||| 0x80 := by
  have h : MCSR_FLAG_START_DELAY_COUNTER = 0x80 := by decide
  rw [h]
  exact Nat.mod_eq_of_lt (Nat.or_lt_two_pow hc (by decide))

theorem mode_value (c : Nat) (m : aries_ilt_IRG_mode) (hc : c < 2 ^ 32) :
    (((c % 2 ^ 32) &&& not32 MCSR_MASK_IRG_MODE) % 2 ^ 32 ||| m.val) % 2 ^ 32
      = (c &&& 0xFFFFFFFC) ||| m.val := by
  rw [not32_mode_mask, Nat.mod_eq_of_lt hc]
  have h1 : c &&& 0xFFFFFFFC < 2 ^ 32 := Nat.and_lt_two_pow c (by decide)
  have h2 : m.val < 2 ^ 32 := Nat.lt_of_lt_of_le (mode_val_lt m) (by decide)
  rw [Nat.mod_eq_of_lt h1]
  exact Nat.mod_eq_of_lt (Nat.or_lt_two_pow h1 h2)

theorem testBit_mode_val (m : aries_ilt_IRG_mode) (i : Nat) (hi : 2 ≤ i) :
    m.val.testBit i = false := by
  apply Nat.testBit_lt_two_pow
  calc m.val < 2 ^ 2 := mode_val_lt m
    _ ≤ 2 ^ i := Nat.pow_le_pow_right (by decide) hi

theorem mode_bits_high (c : Nat) (m : aries_ilt_IRG_mode) (hc : c < 2 ^ 32) (i : Nat)
    (hi : 2 ≤ i) : ((c &&& 0xFFFFFFFC) ||| m.val).testBit i = c.testBit i := by
  rw [Nat.testBit_or, Nat.testBit_and, Bits.testBit_mask_FFFFFFFC, testBit_mode_val m i hi]
  by_cases h : i < 32
  · simp [hi, h]
  · have : c.testBit i = false := Bits.testBit_of_lt32 c i hc (by omega)
    simp [this]

theorem mode_bits_low (c : Nat) (m : aries_ilt_IRG_mode) :
    ((c &&& 0xFFFFFFFC) ||| m.val) % 4 = m.val := by
  have h4 : (4 : Nat) = 2 ^ 2 := by decide
  rw [h4]
  apply Nat.eq_of_testBit_eq
  intro i
  rw [Nat.testBit_mod_two_pow, Nat.testBit_or, Nat.testBit_and, Bits.testBit_mask_FFFFFFFC]
  by_cases h : i < 2
  · have : ¬ (2 ≤ i) := by omega
    simp [h, this]
  · rw [testBit_mode_val m i (by omega)]
    simp [h]

theorem or_two_pow_other (c n i : Nat) (h : i ≠ n) : (c ||| 2 ^ n).testBit i = c.testBit i := by
  rw [Nat.testBit_or, Nat.testBit_two_pow_of_ne (Ne.symm h)]
  simp

theorem or_two_pow_self (c n : Nat) : (c ||| 2 ^ n).testBit n = true := by
  rw [Nat.testBit_or, Nat.testBit_two_pow_self]
  simp

theorem and_7FFFFFFF_self (c : Nat) : (c &&& 0x7FFFFFFF).testBit 31 = false := by
  rw [Nat.testBit_and, Bits.testBit_mask_7FFFFFFF]
  simp

theorem ack3_word_idem (a : Nat) : ack3_word (ack3_word a) = ack3_word a := by
  unfold ack3_word
  apply Nat.eq_of_testBit_eq
  intro i
  simp only [Nat.testBit_mod_two_pow, Nat.testBit_or]
  cases decide (i < 32) <;> cases a.testBit i <;> cases Nat.testBit 8 i <;> rfl

theorem ack3_word_bit3 (a : Nat) : (ack3_word a).testBit 3 = true := by
  unfold ack3_word
  have h8 : (0x00000008 : Nat) = 2 ^ 3 := by decide
  rw [Bits.testBit_mod32 _ 3 (by decide), h8]
  exact or_two_pow_self a 3

theorem with_ack_idem (r : aries_ilt_regmap) : with_ack (with_ack r) = with_ack r := by
  simp only [with_ack, ack3_word_idem]

theorem with_ack_word (r : aries_ilt_regmap) :
    ack3_word (with_ack r).int_ack_sr = ack3_word r.int_ack_sr := by
  simp only [with_ack, ack3_word_idem]

theorem iteration_eq (env : Nat → ReadRes) (w : World) :
    free_running_iteration env w =
      if (env w.reads).nb = 4 then
        { ilt := with_ack w.ilt
          writes := w.writes ++ [(0x20, ack3_word w.ilt.int_ack_sr)]
          out := w.out ++ iteration_output (env w.reads).info (with_ack w.ilt)
          reads := w.reads + 1 }
      else { w with reads := w.reads + 1 } := by
  have h3 : IASR_FLAG_W_ACK_3 = 0x00000008 := by decide
  unfold free_running_iteration
  by_cases h : (env w.reads).nb = 4
  · simp only [h, if_true, ilt_ack_app_interrupt, store_int_ack_sr, print, debug_dump,
      iteration_output, with_ack, ack3_word, h3, OFF_int_ack_sr, List.append_assoc,
      List.cons_append, List.nil_append]
  · simp only [h, if_false]

theorem full_reads_zero (env : Nat → ReadRes) (s : Nat) : full_reads env s 0 = 0 := rfl

theorem full_reads_succ (env : Nat → ReadRes) (s n : Nat) :
    full_reads env s (n + 1) = (if (env s).nb = 4 then 1 else 0) + full_reads env (s + 1) n := by
  unfold full_reads
  have hf : ((fun k => decide ((env (s + k)).nb = 4)) ∘ Nat.succ)
      = (fun k => decide ((env (s + 1 + k)).nb = 4)) := by
    funext k
    simp only [Function.comp, Nat.succ_eq_add_one]
    rw [show s + (k + 1) = s + 1 + k by omega]
  rw [List.range_succ_eq_map, List.filter_cons, List.filter_map, hf]
  by_cases h : (env s).nb = 4
  · simp [h, Nat.add_comm]
  · simp [h]

theorem reports_iteration_output (info : Nat) (r : aries_ilt_regmap) :
    os_reports (iteration_output info r) = 1 ∧ sw_reports (iteration_output info r) = 1
      ∧ (iteration_output info r).length = 7 := by
  refine ⟨?_, ?_, ?_⟩ <;> simp [os_reports, sw_reports, iteration_output]

theorem os_reports_append (a b : List Out) : os_reports (a ++ b) = os_reports a + os_reports b := by
  simp [os_reports]

theorem sw_reports_append (a b : List Out) : sw_reports (a ++ b) = sw_reports a + sw_reports b := by
  simp [sw_reports]

theorem ack_stores_append (a b : List (Nat × Nat)) :
    ack_stores (a ++ b) = ack_stores a + ack_stores b := by
  simp [ack_stores]

theorem ack_stores_replicate (k v : Nat) : ack_stores (List.replicate k (0x20, v)) = k := by
  induction k with
  | zero => rfl
  | succ k ih =>
    rw [List.replicate_succ]
    simp only [ack_stores] at ih ⊢
    rw [List.filter_cons]
    simp [OFF_int_ack_sr, ih]

/-- What `n` iterations of the loop do to a state: `n` reads; one store of the
ACK3 word to `int_ack_sr` and one block of seven output lines (one OS and one SW
latency among them) per full read; nothing else. -/
theorem loop_spec (env : Nat → ReadRes) : ∀ (n : Nat) (w : World),
    (free_running_loop env n w).reads = w.reads + n
    ∧ (free_running_loop env n w).ilt =
        (if full_reads env w.reads n = 0 then w.ilt else with_ack w.ilt)
    ∧ (free_running_loop env n w).writes =
        w.writes ++ List.replicate (full_reads env w.reads n) (0x20, ack3_word w.ilt.int_ack_sr)
    ∧ ∃ o, (free_running_loop env n w).out = w.out ++ o
        ∧ os_reports o = full_reads env w.reads n
        ∧ sw_reports o = full_reads env w.reads n
        ∧ o.length = 7 * full_reads env w.reads n := by
  intro n
  induction n with
  | zero =>
    intro w
    refine ⟨rfl, ?_, ?_, [], ?_, rfl, rfl, rfl⟩
    · simp [free_running_loop, full_reads_zero]
    · simp [free_running_loop, full_reads_zero]
    · simp [free_running_loop]
  | succ n ih =>
    intro w
    have hstep : free_running_loop env (n + 1) w
        = free_running_loop env n (free_running_iteration env w) := rfl
    rw [hstep, full_reads_succ]
    obtain ⟨ihr, ihi, ihw, o, iho, ihos, ihsw, ihl⟩ := ih (free_running_iteration env w)
    have e := iteration_eq env w
    by_cases h : (env w.reads).nb = 4
    · simp only [h, if_true] at e ⊢
      have er : (free_running_iteration env w).reads = w.reads + 1 := by rw [e]
      have ei : (free_running_iteration env w).ilt = with_ack w.ilt := by rw [e]
      have ew : (free_running_iteration env w).writes
          = w.writes ++ [(0x20, ack3_word w.ilt.int_ack_sr)] := by rw [e]
      have eo : (free_running_iteration env w).out
          = w.out ++ iteration_output (env w.reads).info (with_ack w.ilt) := by rw [e]
      rw [er] at ihr ihi ihw ihos ihsw ihl
      rw [ei, with_ack_idem] at ihi
      rw [ei, with_ack_word, ew] at ihw
      rw [eo] at iho
      obtain ⟨h1, h2, h3⟩ := reports_iteration_output (env w.reads).info (with_ack w.ilt)
      refine ⟨by omega, ?_, ?_, iteration_output (env w.reads).info (with_ack w.ilt) ++ o,
        ?_, ?_, ?_, ?_⟩
      · rw [ihi]
        have hne : 1 + full_reads env (w.reads + 1) n ≠ 0 := by omega
        simp only [hne, if_false]
        split <;> rfl
      · rw [ihw, Nat.add_comm 1, List.replicate_succ]
        simp
      · rw [iho, List.append_assoc]
      · rw [os_reports_append, h1, ihos]
      · rw [sw_reports_append, h2, ihsw]
      · rw [List.length_append, h3, ihl]; omega
    · simp only [h, if_false] at e ⊢
      have er : (free_running_iteration env w).reads = w.reads + 1 := by rw [e]
      have ei : (free_running_iteration env w).ilt = w.ilt := by rw [e]
      have ew : (free_running_iteration env w).writes = w.writes := by rw [e]
      have eo : (free_running_iteration env w).out = w.out := by rw [e]
      rw [er] at ihr ihi ihw ihos ihsw ihl
      rw [ei] at ihi ihw
      rw [ew] at ihw
      rw [eo] at iho
      refine ⟨by omega, ?_, ?_, o, iho, ?_, ?_, ?_⟩
      · rw [ihi, Nat.zero_add]
      · rw [ihw, Nat.zero_add]
      · rw [ihos, Nat.zero_add]
      · rw [ihsw, Nat.zero_add]
      · rw [ihl, Nat.zero_add]

/-! ## The free-running session -/

theorem csr_disabled_lt (c : Nat) : csr_disabled c < 2 ^ 32 :=
  Nat.and_lt_two_pow c (by decide)

theorem csr_enabled_lt (c : Nat) : csr_enabled c < 2 ^ 32 :=
  Nat.or_lt_two_pow (csr_disabled_lt c) (by decide)

theorem csr_mode_lt (c : Nat) : csr_mode c < 2 ^ 32 :=
  Nat.or_lt_two_pow (Nat.and_lt_two_pow _ (by decide)) (by decide)

theorem csr_started_lt (c : Nat) : csr_started c < 2 ^ 32 :=
  Nat.or_lt_two_pow (csr_mode_lt c) (by decide)

theorem csr_started_bits (c : Nat) :
    csr_started c % 4 = 1 ∧ (csr_started c).testBit 7 = true
      ∧ (csr_started c).testBit 31 = true := by
  have e7 : (0x80 : Nat) = 2 ^ 7 := by decide
  have e31 : (0x80000000 : Nat) = 2 ^ 31 := by decide
  have hm : csr_mode c % 4 = 1 :=
    mode_bits_low (csr_enabled c) aries_ilt_IRG_mode.irg_free_running
  refine ⟨?_, ?_, ?_⟩
  · have h4 : (4 : Nat) = 2 ^ 2 := by decide
    rw [← hm]
    unfold csr_started
    rw [h4, e7]
    apply Nat.eq_of_testBit_eq
    intro i
    rw [Nat.testBit_mod_two_pow, Nat.testBit_mod_two_pow]
    by_cases h : i < 2
    · rw [or_two_pow_other _ 7 i (by omega)]
    · simp [h]
  · unfold csr_started
    rw [e7]
    exact or_two_pow_self _ 7
  · unfold csr_started
    rw [e7, or_two_pow_other _ 7 31 (by decide)]
    have h := mode_bits_high (csr_enabled c) aries_ilt_IRG_mode.irg_free_running
      (csr_enabled_lt c) 31 (by decide)
    have h1 : csr_mode c = (csr_enabled c &&& 0xFFFFFFFC)
        ||| aries_ilt_IRG_mode.irg_free_running.val := rfl
    rw [h1, h]
    unfold csr_enabled
    rw [e31]
    exact or_two_pow_self _ 31

/-- The part of the session before the loop, in closed form. -/
theorem setup_spec (w : World) :
    free_running_setup w =
      { ilt := { w.ilt with master_csr := csr_started w.ilt.master_csr, int_gen_delay := 25000000 }
        writes := w.writes ++
          [(0x04, csr_disabled w.ilt.master_csr), (0x04, csr_enabled w.ilt.master_csr),
           (0x10, 25000000), (0x04, csr_mode w.ilt.master_csr),
           (0x04, csr_started w.ilt.master_csr)]
        out := w.out ++ setup_output
          { w.ilt with master_csr := csr_mode w.ilt.master_csr, int_gen_delay := 25000000 }
        reads := w.reads } := by
  have hd : (1000 % 2 ^ 16 * ILT_MILLISEC_FACTOR) % 2 ^ 32 = 25000000 := by decide
  have h1 := disable_value w.ilt.master_csr
  have h2 := enable_value (csr_disabled w.ilt.master_csr) (csr_disabled_lt _)
  have h3 := mode_value (csr_enabled w.ilt.master_csr) aries_ilt_IRG_mode.irg_free_running
    (csr_enabled_lt _)
  have h4 := start_value (csr_mode w.ilt.master_csr) (csr_mode_lt _)
  have hv : aries_ilt_IRG_mode.irg_free_running.val = 1 := rfl
  rw [hv] at h3
  unfold csr_disabled at h1 h2
  simp only [free_running_setup, disable_ilt, enable_ilt, set_ilt_delay, set_igm_mode,
    start_delay_counter, debug_dump, print, store_master_csr, store_int_gen_delay,
    OFF_master_csr, OFF_int_gen_delay, setup_output, hd, h1, hv]
  simp only [csr_started, csr_mode, csr_enabled, csr_disabled] at h2 h3 h4 ⊢
  simp only [h2, h3, h4, List.append_assoc, List.cons_append, List.nil_append]

theorem reports_setup_output (r : aries_ilt_regmap) :
    os_reports (setup_output r) = 0 ∧ sw_reports (setup_output r) = 0 := by
  constructor <;> simp [os_reports, sw_reports, setup_output]

theorem full_reads_all (env : Nat → ReadRes) (s n : Nat)
    (h : ∀ k, k < n → (env (s + k)).nb = 4) : full_reads env s n = n := by
  unfold full_reads
  have hf : (List.range n).filter (fun k => decide ((env (s + k)).nb = 4)) = List.range n := by
    rw [List.filter_eq_self]
    intro k hk
    simp [h k (List.mem_range.mp hk)]
  rw [hf, List.length_range]

theorem full_reads_le (env : Nat → ReadRes) (s n : Nat) : full_reads env s n ≤ n := by
  unfold full_reads
  calc ((List.range n).filter (fun k => decide ((env (s + k)).nb = 4))).length
      ≤ (List.range n).length := List.length_filter_le _ _
    _ = n := List.length_range n

/-- The whole session in terms of its setup: twenty reads, one ACK3 store per
full read, then the final disable store. -/
theorem test_spec (env : Nat → ReadRes) (w : World) :
    (ilt_free_running_test env w).reads = w.reads + 20
    ∧ (ilt_free_running_test env w).writes =
        (free_running_setup w).writes
          ++ List.replicate (full_reads env w.reads 20) (0x20, ack3_word w.ilt.int_ack_sr)
          ++ [(0x04, csr_started w.ilt.master_csr &&& 0x7FFFFFFF)]
    ∧ (ilt_free_running_test env w).ilt.master_csr = csr_started w.ilt.master_csr &&& 0x7FFFFFFF
    ∧ ∃ o, (ilt_free_running_test env w).out = (free_running_setup w).out ++ o
        ∧ os_reports o = full_reads env w.reads 20
        ∧ sw_reports o = full_reads env w.reads 20
        ∧ o.length = 7 * full_reads env w.reads 20 := by
  obtain ⟨hr, hi, hw, o, ho, hos, hsw, hl⟩ := loop_spec env 20 (free_running_setup w)
  have hs := setup_spec w
  have sr : (free_running_setup w).reads = w.reads := by rw [hs]
  have sa : (free_running_setup w).ilt.int_ack_sr = w.ilt.int_ack_sr := by rw [hs]
  have sc : (free_running_setup w).ilt.master_csr = csr_started w.ilt.master_csr := by rw [hs]
  rw [sr] at hr hi hw hos hsw hl
  rw [sa] at hw
  have hc : (free_running_loop env 20 (free_running_setup w)).ilt.master_csr
      = csr_started w.ilt.master_csr := by
    rw [hi]
    split
    · exact sc
    · simp only [with_ack]; exact sc
  have hT : ilt_free_running_test env w
      = disable_ilt (free_running_loop env 20 (free_running_setup w)) := rfl
  rw [hT]
  refine ⟨?_, ?_, ?_, o, ?_, hos, hsw, hl⟩
  · simp only [disable_ilt, store_master_csr]; exact hr
  · simp only [disable_ilt, store_master_csr, OFF_master_csr, disable_value, hc, hw]
  · simp only [disable_ilt, store_master_csr, disable_value, hc]
  · simp only [disable_ilt, store_master_csr]; exact ho

/-- The output of `n` iterations whose reads are all full: one block per
iteration, carrying the event count read in that iteration. -/
theorem loop_out_full (env : Nat → ReadRes) : ∀ (n : Nat) (w : World),
    (∀ k, k < n → (env (w.reads + k)).nb = 4) →
    (free_running_loop env n w).out =
      w.out ++ (List.range n).flatMap
        (fun k => iteration_output (env (w.reads + k)).info (with_ack w.ilt)) := by
  intro n
  induction n with
  | zero =>
    intro w _
    simp [free_running_loop]
  | succ n ih =>
    intro w hfull
    have hstep : free_running_loop env (n + 1) w
        = free_running_loop env n (free_running_iteration env w) := rfl
    have h0 : (env w.reads).nb = 4 := by
      have := hfull 0 (by omega)
      simpa using this
    have e := iteration_eq env w
    simp only [h0, if_true] at e
    have er : (free_running_iteration env w).reads = w.reads + 1 := by rw [e]
    have ei : (free_running_iteration env w).ilt = with_ack w.ilt := by rw [e]
    have eo : (free_running_iteration env w).out
        = w.out ++ iteration_output (env w.reads).info (with_ack w.ilt) := by rw [e]
    have hfull' : ∀ k, k < n →
        (env ((free_running_iteration env w).reads + k)).nb = 4 := by
      intro k hk
      rw [er, show w.reads + 1 + k = w.reads + (k + 1) by omega]
      exact hfull (k + 1) (by omega)
    rw [hstep, ih (free_running_iteration env w) hfull', er, ei, eo, with_ack_idem,
      List.range_succ_eq_map, List.flatMap_cons, List.flatMap_map, List.append_assoc]
    have hf : (fun a : Nat => iteration_output (env (w.reads + a.succ)).info (with_ack w.ilt))
        = (fun k => iteration_output (env (w.reads + 1 + k)).info (with_ack w.ilt)) := by
      funext a
      rw [Nat.succ_eq_add_one, show w.reads + (a + 1) = w.reads + 1 + a by omega]
    have hg : ((fun k => iteration_output (env (w.reads + k)).info (with_ack w.ilt)) ∘ Nat.succ)
        = (fun a : Nat => iteration_output (env (w.reads + a.succ)).info (with_ack w.ilt)) := rfl
    have hz : iteration_output (env (w.reads + 0)).info (with_ack w.ilt)
        = iteration_output (env w.reads).info (with_ack w.ilt) := rfl
    simp only [hg, hf, hz]

/-- The `%d` rendering of the 32-bit product is the product itself as long as it
fits a signed 32-bit integer. -/
theorem latency_ns_small (v : Nat) (h : v * 40 < 2 ^ 31) : latency_ns v = (v : Int) * 40 := by
  unfold latency_ns printf_d
  have h1 : v % 2 ^ 32 = v := Nat.mod_eq_of_lt (by omega)
  have h2 : v * 40 % 2 ^ 32 = v * 40 := Nat.mod_eq_of_lt (by omega)
  rw [h1, Nat.mod_mod, h2, if_pos h]
  push_cast
  rfl

/-- C7. End-to-end session over plain memory. For every initial content, when all
twenty waits return the full four bytes: the stores before the loop are, in
order, disable, enable, delay, mode, start; the delay register then holds
25,000,000 and `master_csr` has bits 1:0 = 1, bit 7 and bit 31 set; the loop adds
exactly twenty stores to `int_ack_sr`, each with bit 3 (ACK3) set, and prints
exactly twenty blocks, the `k`-th holding the event count of the `k`-th read,
the register dump, the OS latency computed from `ack0_latency_latch` and the SW
latency computed from `ack3_latency_latch` (each latch word times 40 whenever
that product fits a signed 32-bit integer), so twenty OS and twenty SW latency
lines; the last store is the disable, and on return bit 31 of `master_csr` is
clear. -/
theorem free_running_session (env : Nat → ReadRes) (w : World)
    (hfull : ∀ k, k < 20 → (env (w.reads + k)).nb = 4) :
    (free_running_setup w).writes =
        w.writes ++
          [(0x04, w.ilt.master_csr &&& 0x7FFFFFFF),
           (0x04, (w.ilt.master_csr &&& 0x7FFFFFFF) ||| 0x80000000),
           (0x10, 25000000),
           (0x04, (((w.ilt.master_csr &&& 0x7FFFFFFF) ||| 0x80000000) &&& 0xFFFFFFFC) ||| 1),
           (0x04, csr_started w.ilt.master_csr)]
    ∧ (free_running_setup w).ilt.int_gen_delay = 25000000
    ∧ (free_running_setup w).ilt.master_csr = csr_started w.ilt.master_csr
    ∧ csr_started w.ilt.master_csr % 4 = 1
    ∧ (csr_started w.ilt.master_csr).testBit 7 = true
    ∧ (csr_started w.ilt.master_csr).testBit 31 = true
    ∧ (ilt_free_running_test env w).writes =
        (free_running_setup w).writes
          ++ List.replicate 20 (0x20, ack3_word w.ilt.int_ack_sr)
          ++ [(0x04, csr_started w.ilt.master_csr &&& 0x7FFFFFFF)]
    ∧ (ack3_word w.ilt.int_ack_sr).testBit 3 = true
    ∧ os_reports (ilt_free_running_test env w).out = os_reports w.out + 20
    ∧ sw_reports (ilt_free_running_test env w).out = sw_reports w.out + 20
    ∧ (ilt_free_running_test env w).reads = w.reads + 20
    ∧ (ilt_free_running_test env w).ilt.master_csr.testBit 31 = false
    ∧ (ilt_free_running_test env w).out =
        (free_running_setup w).out ++ (List.range 20).flatMap (fun k =>
          [Out.interrupt (env (w.reads + k)).info,
           Out.text "--------------------------",
           Out.dump { w.ilt with
             master_csr := csr_started w.ilt.master_csr
             int_gen_delay := 25000000
             int_ack_sr := (w.ilt.int_ack_sr ||| 0x00000008) % 2 ^ 32 },
           Out.text "--------------------------",
           Out.os_latency (latency_ns w.ilt.ack0_latency_latch),
           Out.sw_latency (latency_ns w.ilt.ack3_latency_latch),
           Out.text "--------------------------"])
    ∧ (w.ilt.ack0_latency_latch * 40 < 2 ^ 31 →
        latency_ns w.ilt.ack0_latency_latch = (w.ilt.ack0_latency_latch : Int) * 40)
    ∧ (w.ilt.ack3_latency_latch * 40 < 2 ^ 31 →
        latency_ns w.ilt.ack3_latency_latch = (w.ilt.ack3_latency_latch : Int) * 40) := by
  obtain ⟨tr, tw, tc, o, tout, tos, tsw, _⟩ := test_spec env w
  have hk := full_reads_all env w.reads 20 hfull
  rw [hk] at tw tos tsw
  have hs := setup_spec w
  obtain ⟨b0, b7, b31⟩ := csr_started_bits w.ilt.master_csr
  have so : (free_running_setup w).out = w.out ++ setup_output
      { w.ilt with master_csr := csr_mode w.ilt.master_csr, int_gen_delay := 25000000 } := by
    rw [hs]
  have sr : (free_running_setup w).reads = w.reads := by rw [hs]
  have si : (free_running_setup w).ilt =
      { w.ilt with master_csr := csr_started w.ilt.master_csr, int_gen_delay := 25000000 } := by
    rw [hs]
  obtain ⟨r1, r2⟩ := reports_setup_output
      { w.ilt with master_csr := csr_mode w.ilt.master_csr, int_gen_delay := 25000000 }
  have hfull' : ∀ k, k < 20 → (env ((free_running_setup w).reads + k)).nb = 4 := by
    rw [sr]; exact hfull
  have lo := loop_out_full env 20 (free_running_setup w) hfull'
  have hT : (ilt_free_running_test env w).out
      = (free_running_loop env 20 (free_running_setup w)).out := rfl
  refine ⟨?_, ?_, ?_, b0, b7, b31, tw, ack3_word_bit3 _, ?_, ?_, tr, ?_, ?_,
    latency_ns_small _, latency_ns_small _⟩
  · rw [hs]; rfl
  · rw [hs]
  · rw [hs]
  · rw [tout, so, os_reports_append, os_reports_append, r1, tos]
  · rw [tout, so, sw_reports_append, sw_reports_append, r2, tsw]
  · rw [tc]; exact and_7FFFFFFF_self _
  · rw [hT, lo, sr, si]
    rfl

/-- Witness for C7: the session on `world_busy` with every read full. -/
theorem free_running_session_witness :
    (∀ k, k < 20 → (env_full (world_busy.reads + k)).nb = 4)
    ∧ (free_running_setup world_busy).ilt.int_gen_delay = 25000000
    ∧ (ilt_free_running_test env_full world_busy).writes =
        (free_running_setup world_busy).writes
          ++ List.replicate 20 (0x20, ack3_word world_busy.ilt.int_ack_sr)
          ++ [(0x04, csr_started world_busy.ilt.master_csr &&& 0x7FFFFFFF)]
    ∧ os_reports (ilt_free_running_test env_full world_busy).out = os_reports world_busy.out + 20
    ∧ (ilt_free_running_test env_full world_busy).ilt.master_csr.testBit 31 = false
    ∧ (ilt_free_running_test env_full world_busy).out =
        (free_running_setup world_busy).out ++ (List.range 20).flatMap (fun k =>
          [Out.interrupt (env_full (world_busy.reads + k)).info,
           Out.text "--------------------------",
           Out.dump { world_busy.ilt with
             master_csr := csr_started world_busy.ilt.master_csr
             int_gen_delay := 25000000
             int_ack_sr := (world_busy.ilt.int_ack_sr ||| 0x00000008) % 2 ^ 32 },
           Out.text "--------------------------",
           Out.os_latency (latency_ns world_busy.ilt.ack0_latency_latch),
           Out.sw_latency (latency_ns world_busy.ilt.ack3_latency_latch),
           Out.text "--------------------------"])
    ∧ (world_busy.ilt.ack3_latency_latch * 40 < 2 ^ 31 →
        latency_ns world_busy.ilt.ack3_latency_latch
          = (world_busy.ilt.ack3_latency_latch : Int) * 40) :=
  have h := free_running_session env_full world_busy (fun _ _ => rfl)
  ⟨fun _ _ => rfl, h.2.1, h.2.2.2.2.2.2.1, h.2.2.2.2.2.2.2.2.1, h.2.2.2.2.2.2.2.2.2.2.2.1,
    h.2.2.2.2.2.2.2.2.2.2.2.2.1, h.2.2.2.2.2.2.2.2.2.2.2.2.2.2⟩

/-- C8. Short notification reads. One loop iteration always consumes one `read`;
when that read returns four bytes it performs exactly one store (the ACK3 word, to
`int_ack_sr`) and prints one block with one OS and one SW latency; when it
returns any other count it stores nothing and prints nothing. Hence a session
makes exactly twenty reads, and the number of ACK3 stores, of OS latency lines
and of SW latency lines it adds each equals the number of full reads among
those twenty. -/
theorem short_read_skips (env : Nat → ReadRes) (w : World) :
    free_running_iteration env w =
        (if (env w.reads).nb = 4 then
          { ilt := with_ack w.ilt
            writes := w.writes ++ [(0x20, ack3_word w.ilt.int_ack_sr)]
            out := w.out ++ iteration_output (env w.reads).info (with_ack w.ilt)
            reads := w.reads + 1 }
        else { w with reads := w.reads + 1 })
    ∧ (ilt_free_running_test env w).reads = w.reads + 20
    ∧ ack_stores (ilt_free_running_test env w).writes
        = ack_stores w.writes + full_reads env w.reads 20
    ∧ os_reports (ilt_free_running_test env w).out = os_reports w.out + full_reads env w.reads 20
    ∧ sw_reports (ilt_free_running_test env w).out = sw_reports w.out + full_reads env w.reads 20
    ∧ full_reads env w.reads 20 ≤ 20 := by
  obtain ⟨tr, tw, _, o, tout, tos, tsw, _⟩ := test_spec env w
  have hs := setup_spec w
  have so : (free_running_setup w).out = w.out ++ setup_output
      { w.ilt with master_csr := csr_mode w.ilt.master_csr, int_gen_delay := 25000000 } := by
    rw [hs]
  have sw : ack_stores (free_running_setup w).writes = ack_stores w.writes := by
    rw [hs]
    simp [ack_stores, OFF_int_ack_sr]
  obtain ⟨r1, r2⟩ := reports_setup_output
      { w.ilt with master_csr := csr_mode w.ilt.master_csr, int_gen_delay := 25000000 }
  refine ⟨iteration_eq env w, tr, ?_, ?_, ?_, full_reads_le env w.reads 20⟩
  · rw [tw, ack_stores_append, ack_stores_append, sw, ack_stores_replicate]
    simp [ack_stores, OFF_int_ack_sr]
  · rw [tout, so, os_reports_append, os_reports_append, r1, tos, Nat.add_zero]
  · rw [tout, so, sw_reports_append, sw_reports_append, r2, tsw, Nat.add_zero]

/-- C3 (the code at a failing input). With `int_ack_sr` reading `0x00010001`
(ACK3 wait and stage-0 valid), the userspace acknowledgment stores `0x00010009`,
not `0x00000008`: the stored word carries the bits just read, among them bit 0,
the stage-0 ACK. The kernel acknowledgment stores exactly `0x00000001`. -/
theorem ilt_ack_app_interrupt_rmw :
    world_busy.ilt.int_ack_sr = 0x00010001
    ∧ (ilt_ack_app_interrupt world_busy).writes = [(0x20, 0x00010009)]
    ∧ (0x00010009 : Nat) ≠ 0x00000008
    ∧ (Kernel.uio_ilt_handler io_waiting).2.writes = [(0x20, 0x00000001)] := by
  refine ⟨by decide, by decide, by decide, by decide⟩

/-! ## Latency reports -/

theorem test_disables (env : Nat → ReadRes) (w : World) :
    (ilt_free_running_test env w).ilt.master_csr.testBit 31 = false := by
  rw [(test_spec env w).2.2.1]
  exact and_7FFFFFFF_self _

/-- The dispatcher on a command sequence `pre ++ t :: rest` whose first `q` or `3`
is `t`: it returns; the enable bit is then clear when a test ran or when it was
clear before; without a test the register block, the store trace and the read
count are untouched. -/
theorem dispatcher_spec (env : Nat → ReadRes) (t : Char) (rest : List Char)
    (ht : t = 'q' ∨ t = '3') :
    ∀ (pre : List Char) (w : World), (∀ c ∈ pre, c ≠ 'q' ∧ c ≠ '3') →
      ∃ w', ilt_test_dispatcher env (pre ++ t :: rest) w = some w'
        ∧ (('1' ∈ pre ∨ w.ilt.master_csr.testBit 31 = false) →
            w'.ilt.master_csr.testBit 31 = false)
        ∧ ('1' ∉ pre → w'.ilt = w.ilt ∧ w'.writes = w.writes ∧ w'.reads = w.reads) := by
  intro pre
  induction pre with
  | nil =>
    intro w _
    have hc : t = '3' ∨ t = 'q' := ht.symm
    refine ⟨print_menu w, ?_, ?_, ?_⟩
    · simp only [List.nil_append, ilt_test_dispatcher, hc, if_true]
    · intro h
      rcases h with h | h
      · simp at h
      · simpa only [print_menu, print] using h
    · intro _
      simp only [print_menu, print, and_self]
  | cons c pre ih =>
    intro w hpre
    have hc : ¬ (c = '3' ∨ c = 'q') := by
      have := hpre c (List.mem_cons_self c pre)
      tauto
    have hpre' : ∀ d ∈ pre, d ≠ 'q' ∧ d ≠ '3' :=
      fun d hd => hpre d (List.mem_cons_of_mem c hd)
    by_cases h1 : c = '1'
    · obtain ⟨w', e, hb, _⟩ := ih (ilt_free_running_test env (print_menu w)) hpre'
      refine ⟨w', ?_, ?_, ?_⟩
      · simp only [List.cons_append, ilt_test_dispatcher, hc, if_false, h1, if_true]
        exact e
      · intro _
        exact hb (Or.inr (test_disables env _))
      · intro hn
        exact absurd (by rw [h1]; exact List.mem_cons_self _ _) hn
    · obtain ⟨w', e, hb, hi⟩ := ih (print (print_menu w) (Out.text "Choose a valid option."))
        hpre'
      refine ⟨w', ?_, ?_, ?_⟩
      · simp only [List.cons_append, ilt_test_dispatcher, hc, if_false, h1]
        exact e
      · intro h
        apply hb
        rcases h with h | h
        · rcases List.mem_cons.mp h with h | h
          · exact absurd h.symm h1
          · exact Or.inl h
        · right
          simpa only [print_menu, print] using h
      · intro hn
        have hn' : '1' ∉ pre := fun h => hn (List.mem_cons_of_mem c h)
        obtain ⟨i1, i2, i3⟩ := hi hn'
        rw [i1, i2, i3]
        simp only [print_menu, print, and_self]

/-- C6 (counterexample). Mapping a register block whose enable bit is set and
answering the menu with `q` alone, `main` calls `munmap` with bit 31 of
`master_csr` still set. -/
theorem main_quit_leaves_enabled :
    sys_quit.regs.master_csr = 0x83000002 ∧ sys_quit.cmds = ['q']
    ∧ ∃ w, main sys_quit = some { retCode := 0, at_munmap := some w }
        ∧ w.ilt.master_csr.testBit 31 = true :=
  ⟨rfl, rfl, _, rfl, by decide⟩

/-- C6 (amended). When the mapping succeeds and the commands are `pre ++ t :: rest`
with `t` the first `q` or `3`, `main` reaches `munmap` and returns the result of
`close`. At `munmap` bit 31 of `master_csr` is clear if `pre` holds at least one
`1` (a test ran), whatever the initial content and the read results were; if
`pre` holds no `1`, no register was stored to (the store trace is empty), no
`read` was made, and the register block is exactly the one that was mapped, so
bit 31 is then clear exactly when it was clear in the mapped content. -/
theorem main_disable_on_exit (sys : Sys) (pre rest : List Char) (t : Char) (sz : Nat)
    (hidx : 0 ≤ sys.index) (hfd : 0 ≤ sys.uioFd) (hsz : sys.mmap_size = some sz)
    (hsz0 : sz % 2 ^ 32 ≠ 0) (hmap : sys.mmap_ok = true)
    (hcmds : sys.cmds = pre ++ t :: rest) (ht : t = 'q' ∨ t = '3')
    (hpre : ∀ c ∈ pre, c ≠ 'q' ∧ c ≠ '3') :
    ∃ w, main sys = some { retCode := sys.close_ret, at_munmap := some w }
      ∧ ('1' ∈ pre → w.ilt.master_csr.testBit 31 = false)
      ∧ ('1' ∉ pre → w.ilt = sys.regs ∧ w.writes = [] ∧ w.reads = 0
          ∧ w.ilt.master_csr.testBit 31 = sys.regs.master_csr.testBit 31) := by
  obtain ⟨w', e, hb, hi⟩ := dispatcher_spec sys.env t rest ht pre
    (print (print (print { ilt := sys.regs, writes := [], out := [], reads := 0 }
      (Out.text "Memory mapped")) (Out.core_id sys.regs.core_id))
      (Out.mcsr sys.regs.master_csr)) hpre
  refine ⟨w', ?_, fun h => hb (Or.inl h), ?_⟩
  · have h1 : ¬ sys.index < 0 := by omega
    have h2 : ¬ sys.uioFd < 0 := by omega
    unfold main
    simp only [h1, h2, if_false, hsz, hsz0, hmap, hcmds]
    simp only [print] at e ⊢
    rw [e]
    simp
  · intro hn
    obtain ⟨i1, i2, i3⟩ := hi hn
    simp only [print] at i1 i2 i3
    exact ⟨i1, i2, i3, by rw [i1]⟩

/-- Witness for C6 (amended): an invalid command, one test with short reads, `q`. -/
theorem main_disable_on_exit_witness :
    ∃ w, main sys_one_test = some { retCode := sys_one_test.close_ret, at_munmap := some w }
      ∧ ('1' ∈ ['x', '1'] → w.ilt.master_csr.testBit 31 = false)
      ∧ ('1' ∉ ['x', '1'] → w.ilt = sys_one_test.regs ∧ w.writes = [] ∧ w.reads = 0
          ∧ w.ilt.master_csr.testBit 31 = sys_one_test.regs.master_csr.testBit 31) :=
  main_disable_on_exit sys_one_test ['x', '1'] [] 'q' 0x1000 (by decide) (by decide) rfl
    (by decide) rfl rfl (Or.inl rfl) (by decide)

end ILT
